import Mathlib

/-!
Verification of the datamed-cv-generator pipeline: a shallow embedding of
the anonymizer (`src/utils/anonymizer.py`), the structured-record
normalizer (`src/parsers/ai_cv_parser.py`) and the two renderers
(`src/templates/advanced_professional_template.py`,
`src/generators/word_generator.py`, orchestrated by
`src/generators/pdf_generator.py`), together with theorems settling the
frozen claims about them.

Python dictionaries are modelled as insertion-ordered association lists
with unique keys: assignment to an existing key replaces its value in
place, assignment to a fresh key appends, and lookup returns the first
binding.  Python values flowing through the pipeline (None, strings,
lists, dicts) are modelled by the inductive type `Value`.
-/

namespace DatamedCV

/-- A Python value as it occurs in the CV records: `None`, a string,
a list, or a dict (insertion-ordered association list). -/
inductive Value where
  | null : Value
  | str (s : String) : Value
  | vlist (xs : List Value) : Value
  | vdict (xs : List (String × Value)) : Value

/-- Python `d[k]` / `d.get(k)` as first-match lookup in the ordered
association list. -/
def dlookup (d : List (String × Value)) (k : String) : Option Value :=
  match d with
  | [] => none
  | (k', v) :: rest => if k' = k then some v else dlookup rest k

/-- Python `d[k] = v`: replace the (first) binding of `k` in place when
present, append otherwise — this is exactly how Python dicts preserve
insertion order under assignment. -/
def dinsert (d : List (String × Value)) (k : String) (v : Value) :
    List (String × Value) :=
  match d with
  | [] => [(k, v)]
  | (k', v') :: rest =>
    if k' = k then (k', v) :: rest else (k', v') :: dinsert rest k v

/-- `Anonymizer.anonymize_data` (src/utils/anonymizer.py lines 14-35):
copy the record, then overwrite `nom` with the fixed placeholder and set
`email`, `telephone`, `adresse`, `photo` to `None`.  Everything else is
left untouched. -/
def anonymize_data (data : List (String × Value)) : List (String × Value) :=
  let a := data
  let a := dinsert a "nom" (.str "Nom & Prénom")
  let a := dinsert a "email" .null
  let a := dinsert a "telephone" .null
  let a := dinsert a "adresse" .null
  let a := dinsert a "photo" .null
  a

theorem dlookup_dinsert (d : List (String × Value)) (k k' : String) (v : Value) :
    dlookup (dinsert d k v) k' = if k' = k then some v else dlookup d k' := by
  induction d with
  | nil =>
    by_cases h : k' = k
    · subst h; simp [dinsert, dlookup]
    · simp [dinsert, dlookup, h, Ne.symm h]
  | cons hd tl ih =>
    obtain ⟨k₀, v₀⟩ := hd
    by_cases h0 : k₀ = k
    · subst h0
      by_cases h : k' = k₀
      · subst h; simp [dinsert, dlookup]
      · simp [dinsert, dlookup, h, Ne.symm h]
    · by_cases h : k₀ = k'
      · subst h
        simp [dinsert, dlookup, h0, Ne.symm h0]
      · simp [dinsert, dlookup, h0, h, ih]

theorem dinsert_self_of_lookup (d : List (String × Value)) (k : String)
    (v : Value) (h : dlookup d k = some v) : dinsert d k v = d := by
  induction d with
  | nil => simp [dlookup] at h
  | cons hd tl ih =>
    obtain ⟨k₀, v₀⟩ := hd
    by_cases h0 : k₀ = k
    · subst h0
      simp [dlookup] at h
      simp [dinsert, h]
    · simp [dlookup, h0] at h
      simp [dinsert, h0, ih h]

/-- After anonymization each of the five identifying keys holds its fixed
value, and any other key is untouched. -/
theorem anonymize_lookup (d : List (String × Value)) (k : String) :
    dlookup (anonymize_data d) k =
      if k = "photo" then some .null
      else if k = "adresse" then some .null
      else if k = "telephone" then some .null
      else if k = "email" then some .null
      else if k = "nom" then some (.str "Nom & Prénom")
      else dlookup d k := by
  simp [anonymize_data, dlookup_dinsert]

/-- Anonymization is idempotent (helper shared by several claims). -/
theorem anonymize_idem (d : List (String × Value)) :
    anonymize_data (anonymize_data d) = anonymize_data d := by
  show dinsert (dinsert (dinsert (dinsert (dinsert
      (anonymize_data d) "nom" (.str "Nom & Prénom")) "email" .null)
      "telephone" .null) "adresse" .null) "photo" .null = anonymize_data d
  have h1 : dinsert (anonymize_data d) "nom" (.str "Nom & Prénom") =
      anonymize_data d :=
    dinsert_self_of_lookup _ _ _ (by simp [anonymize_lookup])
  have h2 : dinsert (anonymize_data d) "email" Value.null = anonymize_data d :=
    dinsert_self_of_lookup _ _ _ (by simp [anonymize_lookup])
  have h3 : dinsert (anonymize_data d) "telephone" Value.null =
      anonymize_data d :=
    dinsert_self_of_lookup _ _ _ (by simp [anonymize_lookup])
  have h4 : dinsert (anonymize_data d) "adresse" Value.null =
      anonymize_data d :=
    dinsert_self_of_lookup _ _ _ (by simp [anonymize_lookup])
  have h5 : dinsert (anonymize_data d) "photo" Value.null = anonymize_data d :=
    dinsert_self_of_lookup _ _ _ (by simp [anonymize_lookup])
  rw [h1, h2, h3, h4, h5]

/-!
## Character-level helpers

`_basic_extract` (src/parsers/ai_cv_parser.py lines 223-295) works with
Python string methods and the `re` module.  We model strings as `List Char`
and implement the specific regular expressions used by the source
(`\b(19|20)\d{2}\b`, `\b(alt1|...|altn)\b` with `re.IGNORECASE`,
`(?i)(expérience|experience)`, `\n(?=\d{4}|\w+\s+\d{4})`) directly.
Character classes are restricted to the ASCII and Latin-1 ranges that can
occur in the CV texts this pipeline handles; this matches Python's Unicode
classes on that range.
-/

/-- ASCII whitespace, as recognised by Python's `str.strip` and `\s`. -/
def isWs (c : Char) : Bool :=
  c = ' ' || c = '\t' || c = '\n' || c = '\x0d' || c = '\x0b' || c = '\x0c'

/-- `str.strip()` from the left. -/
def stripLeft (cs : List Char) : List Char := cs.dropWhile isWs

/-- `str.strip()` (both sides). -/
def strip (cs : List Char) : List Char :=
  ((stripLeft cs).reverse.dropWhile isWs).reverse

/-- Python `str.lower`, on ASCII letters and the Latin-1 letters
(`À`..`Þ` map to `à`..`þ`, `×` excepted) that occur in French CV text. -/
def lowerChar (c : Char) : Char :=
  if 'A' ≤ c && c ≤ 'Z' then Char.ofNat (c.toNat + 32)
  else if 0xC0 ≤ c.toNat && c.toNat ≤ 0xDE && c.toNat ≠ 0xD7 then
    Char.ofNat (c.toNat + 32)
  else c

def lowerList (cs : List Char) : List Char := cs.map lowerChar

/-- Python regex `\w` (word character), on the ASCII and Latin-1 range:
letters, digits, underscore, and Latin-1 letters. -/
def isWordChar (c : Char) : Bool :=
  ('a' ≤ c && c ≤ 'z') || ('A' ≤ c && c ≤ 'Z') || ('0' ≤ c && c ≤ '9') ||
  c = '_' ||
  (0xC0 ≤ c.toNat && c.toNat ≤ 0xFF && c.toNat ≠ 0xD7 && c.toNat ≠ 0xF7)

def isDigit (c : Char) : Bool := '0' ≤ c && c ≤ '9'

/-- Case-insensitive "starts with". -/
def ciStarts : List Char → List Char → Bool
  | [], _ => true
  | _ :: _, [] => false
  | a :: as, b :: bs => (lowerChar a = lowerChar b) && ciStarts as bs

/-- Is the (optional) character a word character?  Used for `\b`:
a word boundary sits between a word and a non-word character (text
edges count as non-word). -/
def wordAt : Option Char → Bool
  | some c => isWordChar c
  | none => false

/-- Try one alternative of a `\b(alt1|...|altn)\b` pattern at the current
position (`prev` is the character before the position).  Returns the
captured text and the rest of the input. -/
def tryAlt (alt : List Char) (prev : Option Char) (cs : List Char) :
    Option (List Char × List Char) :=
  if ciStarts alt cs && (wordAt prev != wordAt cs.head?) then
    let cap := cs.take alt.length
    let rest := cs.drop alt.length
    if wordAt cap.getLast? != wordAt rest.head? then some (cap, rest) else none
  else none

/-- Python alternation tries the alternatives in order at each position. -/
def firstAlt (alts : List (List Char)) (prev : Option Char) (cs : List Char) :
    Option (List Char × List Char) :=
  match alts with
  | [] => none
  | a :: rest =>
    match tryAlt a prev cs with
    | some r => some r
    | none => firstAlt rest prev cs

/-- `re.findall(r'\b(alt1|...|altn)\b', text, re.IGNORECASE)`: scan left to
right, non-overlapping, capturing the text as it appears in the input.
The fuel argument bounds the scan by the input length. -/
def findAllAux (alts : List (List Char)) :
    Nat → Option Char → List Char → List (List Char)
  | 0, _, _ => []
  | _, _, [] => []
  | fuel+1, prev, c :: cs' =>
    match firstAlt alts prev (c :: cs') with
    | some (cap, rest) => cap :: findAllAux alts fuel cap.getLast? rest
    | none => findAllAux alts fuel (some c) cs'

def findAll (alts : List (List Char)) (cs : List Char) : List (List Char) :=
  findAllAux alts cs.length none cs

/-- `re.search(r'\b(19|20)\d{2}\b', line)` at one position. -/
def yearAt (prev : Option Char) (cs : List Char) : Option (List Char) :=
  match cs with
  | c1 :: c2 :: c3 :: c4 :: rest =>
    if (wordAt prev != wordAt (some c1)) &&
       ((c1 = '1' && c2 = '9') || (c1 = '2' && c2 = '0')) &&
       isDigit c3 && isDigit c4 &&
       (wordAt (some c4) != wordAt rest.head?) then
      some [c1, c2, c3, c4]
    else none
  | _ => none

def findYearAux : Nat → Option Char → List Char → Option (List Char)
  | 0, _, _ => none
  | _, _, [] => none
  | fuel+1, prev, c :: cs' =>
    match yearAt prev (c :: cs') with
    | some y => some y
    | none => findYearAux fuel (some c) cs'

/-- Leftmost match of `\b(19|20)\d{2}\b` (`year_match.group(0)`). -/
def findYear (cs : List Char) : Option (List Char) :=
  findYearAux cs.length none cs

/-- Python `needle in hay` (substring containment). -/
def containsSub (needle : List Char) : List Char → Bool
  | [] => needle.isEmpty
  | c :: rest => needle.isPrefixOf (c :: rest) || containsSub needle rest

/-- Python `text.split(sep)` for a single-character separator. -/
def splitOnChar (sep : Char) : List Char → List (List Char)
  | [] => [[]]
  | c :: cs =>
    if c = sep then [] :: splitOnChar sep cs
    else
      match splitOnChar sep cs with
      | [] => [[c]]
      | h :: t => (c :: h) :: t

/-- `list(set(xs))` — duplicates removed.  CPython's set iteration order is
unspecified (string hashing is randomised); we fix the order of first
occurrence, which no claim depends on. -/
def dedupAux : List String → List String → List String
  | [], _ => []
  | x :: rest, seen =>
    if seen.contains x then dedupAux rest seen
    else x :: dedupAux rest (x :: seen)

def dedupFirst (xs : List String) : List String := dedupAux xs []

/-- Python list indexing `xs[i]`, raising `IndexError` out of bounds. -/
def pyIndex {α : Type} : List α → Nat → Except String α
  | [], _ => .error "IndexError: list index out of range"
  | a :: _, 0 => .ok a
  | _ :: rest, i+1 => pyIndex rest i

/-- Python `xs[-1]`, raising `IndexError` on an empty list. -/
def pyLast {α : Type} : List α → Except String α
  | [] => .error "IndexError: list index out of range"
  | [a] => .ok a
  | _ :: b :: rest => pyLast (b :: rest)

theorem pyIndex_ok {α : Type} (xs : List α) (i : Nat) (h : i < xs.length) :
    ∃ a, pyIndex xs i = .ok a := by
  induction xs generalizing i with
  | nil => simp at h
  | cons x rest ih =>
    cases i with
    | zero => exact ⟨x, rfl⟩
    | succ j =>
      simp at h
      exact ih j (by omega)

theorem pyLast_ok {α : Type} (xs : List α) (h : xs ≠ []) :
    ∃ a, pyLast xs = .ok a := by
  induction xs with
  | nil => exact absurd rfl h
  | cons x rest ih =>
    cases rest with
    | nil => exact ⟨x, rfl⟩
    | cons y t => exact ih (by simp)

/-!
## The fallback extractor `AICVParser._basic_extract`

The function is written in an `Except String` monad so that the Python
operations that can raise (`lines[i+1]`, `exp_sections[-1]`) are modelled
as fallible; the claim that the extractor never raises becomes the theorem
that the result is always `.ok`.
-/

/-- Education keywords of the diploma heuristic (source line 258). -/
def eduKeywords : List (List Char) :=
  ["master".toList, "licence".toList, "diplôme".toList, "école".toList,
   "université".toList]

/-- One diploma entry (source lines 259-263), keys in insertion order. -/
def mkDiplome (yr line etab : List Char) : Value :=
  .vdict [("annee", .str (String.mk yr)),
          ("diplome", .str (String.mk (strip line))),
          ("etablissement", .str (String.mk etab))]

/-- The diploma loop (source lines 256-263): for each line carrying a
4-digit year and an education keyword, emit an entry whose institution is
the next line (guarded index access). -/
def diplomesLoop (lines : List (List Char)) :
    Nat → List (List Char) → Except String (List Value)
  | _, [] => .ok []
  | i, line :: rest =>
    let entryE : Except String (Option Value) :=
      match findYear line with
      | none => .ok none
      | some yr =>
        if eduKeywords.any (fun kw => containsSub kw (lowerList line)) then
          match (if i + 1 < lines.length then
                   match pyIndex lines (i + 1) with
                   | .ok nxt => .ok (strip nxt)
                   | .error e => .error e
                 else .ok [] : Except String (List Char)) with
          | .ok etab => .ok (some (mkDiplome yr line etab))
          | .error e => .error e
        else .ok none
    match entryE with
    | .error e => .error e
    | .ok none => diplomesLoop lines (i + 1) rest
    | .ok (some v) =>
      match diplomesLoop lines (i + 1) rest with
      | .ok vs => .ok (v :: vs)
      | .error e => .error e

/-- The four technology alternations of `tech_patterns`
(source lines 266-271), in source order. -/
def langagesAlts : List (List Char) :=
  ["Java", "Python", "JavaScript", "TypeScript", "C++", "C#", "PHP", "Ruby",
   "Go", "Rust", "Kotlin", "Swift", "Scala"].map String.toList

def frameworksAlts : List (List Char) :=
  ["Angular", "React", "Vue", "Spring", "Django", "Flask", "Express",
   "Hibernate", "JPA"].map String.toList

def sgbdrAlts : List (List Char) :=
  ["Oracle", "MySQL", "PostgreSQL", "MongoDB", "Redis", "Cassandra",
   "SQL Server"].map String.toList

def cloudAlts : List (List Char) :=
  ["AWS", "Azure", "GCP", "Cloud", "Kubernetes", "Docker"].map String.toList

/-- `list(set(re.findall(pattern, text, re.IGNORECASE)))` as a list of
string values. -/
def techMatches (alts : List (List Char)) (cs : List Char) : List Value :=
  (dedupFirst ((findAll alts cs).map String.mk)).map Value.str

/-- The `competences` sub-dictionary after the category loop
(source lines 235-250 initialise fourteen empty categories, lines 273-275
then assign the four matched categories in place; in-place assignment
preserves the insertion order of the keys). -/
def competencesDict (cs : List Char) : List (String × Value) :=
  [("langages", .vlist (techMatches langagesAlts cs)),
   ("api_normes", .vlist []),
   ("frameworks", .vlist (techMatches frameworksAlts cs)),
   ("sgbdr", .vlist (techMatches sgbdrAlts cs)),
   ("modelisation", .vlist []),
   ("ide", .vlist []),
   ("serveurs_applications", .vlist []),
   ("serveurs_web", .vlist []),
   ("integration_continue", .vlist []),
   ("gestion_versions", .vlist []),
   ("tests_unitaires", .vlist []),
   ("cloud", .vlist (techMatches cloudAlts cs)),
   ("systemes", .vlist []),
   ("methodes_outils", .vlist [])]

/-- Case-insensitive literal alternation match (no word boundaries), for
`re.split(r'(?i)(expérience|experience)', text)`. -/
def matchAltCi (alts : List (List Char)) (cs : List Char) :
    Option (List Char × List Char) :=
  match alts with
  | [] => none
  | a :: rest =>
    if ciStarts a cs then some (cs.take a.length, cs.drop a.length)
    else matchAltCi rest cs

/-- `re.split` with a capturing group: the result alternates the text
between matches with the captured separators. -/
def splitCiAux (alts : List (List Char)) :
    Nat → List Char → List Char → List (List Char)
  | 0, acc, cs => [acc.reverse ++ cs]
  | fuel+1, acc, cs =>
    match cs with
    | [] => [acc.reverse]
    | c :: cs' =>
      match matchAltCi alts cs with
      | some (cap, rest) => acc.reverse :: cap :: splitCiAux alts fuel [] rest
      | none => splitCiAux alts fuel (c :: acc) cs'

def splitExperience (cs : List Char) : List (List Char) :=
  splitCiAux ["expérience".toList, "experience".toList] (cs.length + 1) [] cs

/-- Lookahead `\d{4}` — four digits at the head. -/
def fourDigits : List Char → Bool
  | a :: b :: c :: d :: _ => isDigit a && isDigit b && isDigit c && isDigit d
  | _ => false

/-- Lookahead `\w+\s+\d{4}`.  `\w` and `\s` are disjoint and `\d ⊆ \w`, so
maximal munch of the word run and the space run is the only possible
match. -/
def wordSpaceYear (cs : List Char) : Bool :=
  let w := cs.takeWhile isWordChar
  let rest1 := cs.drop w.length
  let s := rest1.takeWhile isWs
  let rest2 := rest1.drop s.length
  decide (1 ≤ w.length) && decide (1 ≤ s.length) && fourDigits rest2

/-- `re.split(r'\n(?=\d{4}|\w+\s+\d{4})', exp_text)` (source line 282):
split on a newline whose suffix matches the lookahead; the newline is
consumed. -/
def splitCompaniesAux : Nat → List Char → List Char → List (List Char)
  | 0, acc, cs => [acc.reverse ++ cs]
  | fuel+1, acc, cs =>
    match cs with
    | [] => [acc.reverse]
    | c :: cs' =>
      if c = '\n' && (fourDigits cs' || wordSpaceYear cs') then
        acc.reverse :: splitCompaniesAux fuel [] cs'
      else splitCompaniesAux fuel (c :: acc) cs'

def splitCompanies (cs : List Char) : List (List Char) :=
  splitCompaniesAux (cs.length + 1) [] cs

/-- One experience entry of the fallback extractor
(source lines 286-293), keys in insertion order. -/
def mkExperience (block : List Char) : Value :=
  .vdict [("entreprise", .str "ENTREPRISE"),
          ("periode", .str ""),
          ("poste", .str ""),
          ("projets", .vlist [.str (String.mk (strip block))]),
          ("realisations",
           .vlist ((splitOnChar '\n' block).map (fun l => .str (String.mk l)))),
          ("environnement", .vlist [])]

/-- Experience extraction (source lines 277-293). -/
def experiencesOf (cs : List Char) : Except String (List Value) :=
  let expSections := splitExperience cs
  if expSections.length > 1 then
    match pyLast expSections with
    | .error e => .error e
    | .ok expText =>
      let companies := splitCompanies expText
      .ok (companies.filterMap (fun b =>
        if (strip b).length > 20 then some (mkExperience b) else none))
  else .ok []

/-- `AICVParser._basic_extract` (source lines 223-295).  The `data` dict is
initialised with the keys `diplomes`, `competences`, `langues`,
`experiences` (in that insertion order) and then mutated in place; the
result below is that dictionary after all mutations. -/
def basic_extract (text : String) : Except String (List (String × Value)) :=
  let cs := text.toList
  let lines := splitOnChar '\n' cs
  match diplomesLoop lines 0 lines with
  | .error e => .error e
  | .ok ds =>
    match experiencesOf cs with
    | .error e => .error e
    | .ok es =>
      .ok [("diplomes", .vlist ds),
           ("competences", .vdict (competencesDict cs)),
           ("langues", .vlist []),
           ("experiences", .vlist es)]

theorem diplomesLoop_ok (lines : List (List Char)) (rem : List (List Char))
    (i : Nat) : ∃ vs, diplomesLoop lines i rem = .ok vs := by
  induction rem generalizing i with
  | nil => exact ⟨[], rfl⟩
  | cons line rest ih =>
    obtain ⟨vs, hvs⟩ := ih (i + 1)
    by_cases hy : (findYear line).isSome
    · obtain ⟨yr, hyr⟩ := Option.isSome_iff_exists.mp hy
      by_cases hk : eduKeywords.any (fun kw => containsSub kw (lowerList line))
      · by_cases hg : i + 1 < lines.length
        · obtain ⟨nxt, hnxt⟩ := pyIndex_ok lines (i + 1) hg
          refine ⟨mkDiplome yr line (strip nxt) :: vs, ?_⟩
          simp [diplomesLoop, hyr, hk, hg, hnxt, hvs]
        · refine ⟨mkDiplome yr line [] :: vs, ?_⟩
          simp [diplomesLoop, hyr, hk, hg, hvs]
      · refine ⟨vs, ?_⟩
        simp [diplomesLoop, hyr, hk, hvs]
    · obtain hn := Option.not_isSome_iff_eq_none.mp hy
      refine ⟨vs, ?_⟩
      simp [diplomesLoop, hn, hvs]

theorem experiencesOf_ok (cs : List Char) :
    ∃ es, experiencesOf cs = .ok es := by
  by_cases h : (splitExperience cs).length > 1
  · have hne : splitExperience cs ≠ [] := by
      intro hempty
      rw [hempty] at h
      simp at h
    obtain ⟨expText, hlast⟩ := pyLast_ok _ hne
    refine ⟨(splitCompanies expText).filterMap (fun b =>
      if (strip b).length > 20 then some (mkExperience b) else none), ?_⟩
    simp only [experiencesOf, if_pos h, hlast]
  · exact ⟨[], by simp only [experiencesOf, if_neg h]⟩

/-- The fallback extractor always succeeds, returning the four-key record
shape. -/
theorem basic_extract_ok (text : String) :
    ∃ ds es, basic_extract text =
      .ok [("diplomes", .vlist ds),
           ("competences", .vdict (competencesDict text.toList)),
           ("langues", .vlist []),
           ("experiences", .vlist es)] := by
  obtain ⟨ds, hds⟩ :=
    diplomesLoop_ok (splitOnChar '\n' text.toList) (splitOnChar '\n' text.toList) 0
  obtain ⟨es, hes⟩ := experiencesOf_ok text.toList
  exact ⟨ds, es, by simp only [basic_extract, hds, hes]⟩

/-!
## The primary extraction path `AICVParser._ai_extract` and `parse_cv`

The external model call is an opaque collaborator; its outcome is a
parameter `genResult` (`.ok response_text`, or `.error` for any network /
API exception raised by `generate_content` or the response accessors).
JSON parsing is likewise a parameter `jsonLoads` (`none` models
`json.JSONDecodeError`).  The `try:` body of `_ai_extract` is
`ai_extract_body`; the `except Exception:` clause is the fallback branch
of `ai_extract`.
-/

/-- `xs[:-n]` on char lists. -/
def dropRight (cs : List Char) (n : Nat) : List Char := cs.take (cs.length - n)

/-- The response-cleaning steps of `_ai_extract` (source lines 202-212):
strip, remove a leading ```` ```json ```` or ```` ``` ```` fence, remove a
trailing ```` ``` ```` fence, strip again. -/
def cleanJson (cs : List Char) : List Char :=
  let t := strip cs
  let t := if "```json".toList.isPrefixOf t then t.drop 7 else t
  let t := if "```".toList.isPrefixOf t then t.drop 3 else t
  let t := if "```".toList.isSuffixOf t then dropRight t 3 else t
  strip t

/-- The `try:` body of `_ai_extract` (source lines 200-216): obtain the
response text, clean it, parse it as JSON. -/
def ai_extract_body (jsonLoads : String → Option Value)
    (genResult : Except String String) : Except String Value :=
  match genResult with
  | .error e => .error e
  | .ok resp =>
    match jsonLoads (String.mk (cleanJson resp.toList)) with
    | some d => .ok d
    | none => .error "json.JSONDecodeError"

/-- `AICVParser._ai_extract` (source lines 89-221): any exception raised in
the body is caught and the basic extractor is run on the same raw text. -/
def ai_extract (jsonLoads : String → Option Value)
    (genResult : Except String String) (text : String) : Except String Value :=
  match ai_extract_body jsonLoads genResult with
  | .ok d => .ok d
  | .error _ =>
    match basic_extract text with
    | .ok r => .ok (.vdict r)
    | .error e => .error e

/-- `AICVParser.parse_cv` (source lines 35-56), modelled from the point
where the raw text has been extracted from the document: guard against
short input, then dispatch to the AI path or the fallback. -/
def parse_cv (aiEnabled : Bool) (jsonLoads : String → Option Value)
    (genResult : Except String String) (text : String) : Except String Value :=
  if text.length = 0 ∨ text.length < 50 then
    .error "CV text is too short or empty"
  else if aiEnabled then ai_extract jsonLoads genResult text
  else
    match basic_extract text with
    | .ok r => .ok (.vdict r)
    | .error e => .error e

/-!
## The renderers

The document produced by either renderer is abstracted as a list of
`Block`s: one block per paragraph / table / flowable appended by the
source, carrying the (raw) record values that the source interpolates
into it.  Colors, fonts and geometry are not modelled — no claim
concerns them.
-/

inductive Block where
  | logo : Block
  | spacer : Block
  | pageBreak : Block
  | titleLine (s : String) : Block
  | sectionHeader (n : Nat) (title : String) : Block
  | diplomeRow (annee diplome etablissement : Value) : Block
  | certRow (annee nom organisme : Value) : Block
  | skillRow (categorie : Value) (competences : List Value) : Block
  | langueRow (langue niveau : Value) : Block
  | expHeader (entreprise periode : Value) : Block
  | posteLine (v : Value) : Block
  | lieuLine (v : Value) : Block
  | labelLine (s : String) : Block
  | projetLine (v : Value) : Block
  | realLine (v : Value) : Block
  | envLine (v : Value) : Block
  | footerLine (s : String) : Block

/-- Python truthiness for the record values. -/
def truthy : Value → Bool
  | .null => false
  | .str s => !s.isEmpty
  | .vlist xs => !xs.isEmpty
  | .vdict xs => !xs.isEmpty

/-- Truthiness of `data.get(k)` (`None` when the key is absent). -/
def otruthy : Option Value → Bool
  | none => false
  | some v => truthy v

/-- `entry.get(k, dflt)` on a record value. -/
def vget (v : Value) (k : String) (dflt : Value) : Value :=
  match v with
  | .vdict d =>
    match dlookup d k with
    | some x => x
    | none => dflt
  | _ => dflt

def asList : Value → List Value
  | .vlist xs => xs
  | _ => []

/-- `data[k]` iterated as a list. -/
def getList (d : List (String × Value)) (k : String) : List Value :=
  match dlookup d k with
  | some v => asList v
  | none => []

/-- The `if projet.strip():` / `if real.strip():` filters of the
experience loops. -/
def stripTruthy : Value → Bool
  | .str s => !(strip s.toList).isEmpty
  | _ => true

/-- `_create_logo` / `_add_logo`: the logo image is looked up on the
filesystem; `logoFound` abstracts whether any candidate path exists.
Absence degrades to emitting nothing. -/
def logoBlocks (logoFound : Bool) : List Block :=
  if logoFound then [.logo, .spacer] else []

def sectionHeaderBlocks (n : Nat) (title : String) : List Block :=
  [.sectionHeader n title, .spacer]

/-- `_create_diplomes` / `_add_diplomes` entry rows. -/
def diplomeRows (ds : List Value) : List Block :=
  ds.map fun dip =>
    .diplomeRow (vget dip "annee" (.str "")) (vget dip "diplome" (.str ""))
      (vget dip "etablissement" (.str ""))

/-- `_create_certifications` / `_add_certifications` entry rows. -/
def certRows (cs : List Value) : List Block :=
  cs.map fun cert =>
    .certRow (vget cert "annee" (.str "")) (vget cert "nom" (.str ""))
      (vget cert "organisme" (.str ""))

/-- `_create_dynamic_competences` / `_add_competences`: groups with a
falsy `competences` value are skipped. -/
def skillRows (gs : List Value) : List Block :=
  gs.filterMap fun g =>
    if truthy (vget g "competences" (.vlist [])) then
      some (.skillRow (vget g "categorie" (.str ""))
        (asList (vget g "competences" (.vlist []))))
    else none

def langueRows (ls : List Value) : List Block :=
  ls.map fun l =>
    .langueRow (vget l "langue" (.str "")) (vget l "niveau" (.str ""))

/-- One experience entry (`_create_experiences` body /
`_add_experiences` body); `projLabel` is "Projets:" in the PDF template
and "Contexte du projet:" in the Word generator. -/
def expBlocks (projLabel : String) (exp : Value) : List Block :=
  [.expHeader (vget exp "entreprise" (.str "")) (vget exp "periode" (.str ""))]
  ++ (if truthy (vget exp "poste" (.str "")) then
        [.posteLine (vget exp "poste" (.str ""))] else [])
  ++ (if truthy (vget exp "lieu" (.str "")) then
        [.lieuLine (vget exp "lieu" (.str ""))] else [])
  ++ (if truthy (vget exp "projets" .null) then
        [.labelLine projLabel]
        ++ (asList (vget exp "projets" .null)).filterMap (fun p =>
             if stripTruthy p then some (.projetLine p) else none)
      else [])
  ++ (if truthy (vget exp "realisations" .null) then
        [.labelLine "Réalisations:"]
        ++ (asList (vget exp "realisations" .null)).filterMap (fun r =>
             if stripTruthy r then some (.realLine r) else none)
      else [])
  ++ (if truthy (vget exp "environnement" .null) then
        [.envLine (vget exp "environnement" .null)] else [])

/-- PDF `_create_experiences`: a spacer between entries (not after the
last one). -/
def pdfExperiences : List Value → List Block
  | [] => []
  | [e] => expBlocks "Projets:" e
  | e :: rest => expBlocks "Projets:" e ++ [.spacer] ++ pdfExperiences rest

/-- Word `_add_experiences`: a spacer after every entry. -/
def wordExperiences (es : List Value) : List Block :=
  (es.map (fun e => expBlocks "Contexte du projet:" e ++ [.spacer])).flatten

/-- The section skeleton shared by the PDF templates
(`AdvancedProfessionalTemplate.generate`, source lines 109-175): numbered
sections FORMATION, CERTIFICATIONS, COMPÉTENCES TECHNIQUES, LANGUES, a
forced page break with the logo repeated, EXPÉRIENCES PROFESSIONNELLES,
and a footer.  `footerText` is the only stylistic degree of freedom the
claims can observe. -/
def pdf_template_generate (footerText : String) (logoFound : Bool)
    (data : List (String × Value)) : List Block :=
  let hasDip := otruthy (dlookup data "diplomes")
  let hasCert := otruthy (dlookup data "certifications")
  let hasComp := otruthy (dlookup data "competences_groups")
  let hasLang := otruthy (dlookup data "langues")
  let n2 := if hasDip then 2 else 1
  let n3 := if hasCert then n2 + 1 else n2
  let n4 := if hasComp then n3 + 1 else n3
  let n5 := if hasLang then n4 + 1 else n4
  logoBlocks logoFound
  ++ [.titleLine "Nom & Prénom", .titleLine "Consultant IT", .spacer]
  ++ (if hasDip then
        sectionHeaderBlocks 1 "FORMATION" ++ diplomeRows (getList data "diplomes")
      else [])
  ++ (if hasCert then
        sectionHeaderBlocks n2 "CERTIFICATIONS"
        ++ certRows (getList data "certifications")
      else [])
  ++ (if hasComp then
        sectionHeaderBlocks n3 "COMPÉTENCES TECHNIQUES"
        ++ skillRows (getList data "competences_groups")
      else [])
  ++ (if hasLang then
        sectionHeaderBlocks n4 "LANGUES" ++ langueRows (getList data "langues")
      else [])
  ++ [.pageBreak] ++ logoBlocks logoFound ++ [.spacer]
  ++ (if otruthy (dlookup data "experiences") then
        sectionHeaderBlocks n5 "EXPÉRIENCES PROFESSIONNELLES"
        ++ pdfExperiences (getList data "experiences")
      else [])
  ++ [.spacer, .footerLine footerText]

/-- `AdvancedProfessionalTemplate.generate`
(src/templates/advanced_professional_template.py lines 109-175). -/
def advanced_generate (logoFound : Bool) (data : List (String × Value)) :
    List Block :=
  pdf_template_generate "www.consultingdatamed.com" logoFound data

/-- Modelled from the spec: `FastorGieTemplate`
(templates/fastorgie_template.py) is imported by
src/generators/pdf_generator.py but the file is absent from the source
snapshot.  Per the spec, styles are "distinguished only by colors and
header text, not structure", so the fastorgie PDF template shares the
structural skeleton of the advanced template and differs only in palette
(not modelled) and branding text. -/
def fastorgie_generate (logoFound : Bool) (data : List (String × Value)) :
    List Block :=
  pdf_template_generate "www.fastor.com" logoFound data

/-- `WordGenerator.generate_cv` (src/generators/word_generator.py lines
28-103).  Note: certifications are nested inside the `diplomes` guard
under the single header "FORMATIONS & CERTIFICATIONS" (lines 63-71). -/
def word_generate (logoFound : Bool) (templateType : String)
    (data : List (String × Value)) : List Block :=
  let hasDip := otruthy (dlookup data "diplomes")
  let hasComp := otruthy (dlookup data "competences_groups")
  let hasLang := otruthy (dlookup data "langues")
  let n2 := if hasDip then 2 else 1
  let n3 := if hasComp then n2 + 1 else n2
  let n4 := if hasLang then n3 + 1 else n3
  logoBlocks logoFound
  ++ [.titleLine "Nom & Prénom", .titleLine "Consultant IT", .spacer]
  ++ (if hasDip then
        sectionHeaderBlocks 1 "FORMATIONS & CERTIFICATIONS"
        ++ diplomeRows (getList data "diplomes")
        ++ (if otruthy (dlookup data "certifications") then
              certRows (getList data "certifications")
            else [])
      else [])
  ++ (if hasComp then
        sectionHeaderBlocks n2 "COMPÉTENCES FONCTIONNELLES & TECHNIQUES"
        ++ skillRows (getList data "competences_groups")
      else [])
  ++ (if hasLang then
        sectionHeaderBlocks n3 "LANGUES" ++ langueRows (getList data "langues")
      else [])
  ++ [.pageBreak] ++ logoBlocks logoFound
  ++ (if otruthy (dlookup data "experiences") then
        sectionHeaderBlocks n4 "EXPÉRIENCES PROFESSIONNELLES"
        ++ wordExperiences (getList data "experiences")
      else [])
  ++ [.footerLine (if templateType = "advanced" then
        "www.consultingdatamed.com" else "www.fastor.com")]

/-- `CVGenerator.generate_cv` (src/generators/pdf_generator.py lines
17-48): anonymize the record, then dispatch on the export format and the
template type. -/
def generate_cv (logoFound : Bool) (templateType exportFormat : String)
    (data : List (String × Value)) : List Block :=
  let anonymized := anonymize_data data
  if exportFormat.toLower = "word" then
    word_generate logoFound templateType anonymized
  else if templateType = "fastorgie" then
    fastorgie_generate logoFound anonymized
  else
    advanced_generate logoFound anonymized

/-!
## Helper lemmas
-/

/-- `_ai_extract` always returns a record: its own failures are caught and
converted into the (never-failing) fallback extraction. -/
theorem ai_extract_ok (jl : String → Option Value) (gr : Except String String)
    (text : String) : ∃ v, ai_extract jl gr text = .ok v := by
  cases hb : ai_extract_body jl gr with
  | ok d => exact ⟨d, by simp [ai_extract, hb]⟩
  | error e =>
    obtain ⟨ds, es, hr⟩ := basic_extract_ok text
    exact ⟨.vdict [("diplomes", .vlist ds),
      ("competences", .vdict (competencesDict text.toList)),
      ("langues", .vlist []), ("experiences", .vlist es)],
      by simp [ai_extract, hb, hr]⟩

theorem dropWhile_length_le {α : Type} (p : α → Bool) (l : List α) :
    (l.dropWhile p).length ≤ l.length := by
  induction l with
  | nil => simp
  | cons a t ih =>
    rw [List.dropWhile_cons]
    split
    · exact le_trans ih (by simp)
    · simp

theorem strip_eq_rdrop (cs : List Char) :
    strip cs = (cs.dropWhile isWs).rdropWhile isWs := rfl

theorem strip_idem (cs : List Char) : strip (strip cs) = strip cs := by
  rw [strip_eq_rdrop, strip_eq_rdrop]
  have h1 : ((cs.dropWhile isWs).rdropWhile isWs).dropWhile isWs =
      (cs.dropWhile isWs).rdropWhile isWs := by
    rcases hB : (cs.dropWhile isWs).rdropWhile isWs with _ | ⟨b, t⟩
    · simp
    · have hpre : (cs.dropWhile isWs).rdropWhile isWs <+: cs.dropWhile isWs :=
        List.rdropWhile_prefix isWs (cs.dropWhile isWs)
      rw [hB] at hpre
      obtain ⟨s, hs⟩ := hpre
      have hAd : (cs.dropWhile isWs).dropWhile isWs = cs.dropWhile isWs :=
        List.dropWhile_idempotent isWs cs
      rw [← hs] at hAd
      have hhead : ¬ isWs b = true := by
        intro hb
        rw [List.cons_append, List.dropWhile_cons, if_pos hb] at hAd
        have hlen := congrArg List.length hAd
        have hle := dropWhile_length_le isWs (t ++ s)
        simp at hlen hle
        omega
      simp [List.dropWhile_cons, hhead]
  rw [h1, List.rdropWhile_idempotent]

/-!
## Claims C1, C5, C6, C7, C8
-/

/-- C1: for every record, `anonymize_data` sets `nom` to the fixed
placeholder "Nom & Prénom" and sets `email`, `telephone`, `adresse`,
`photo` to `None`, and every other field — in particular `experiences`
with its company names and locations — is returned exactly as in the
input, regardless of the original values of the identifying fields
(already-null included). -/
theorem c1_anonymize_identifying_fields (r : List (String × Value)) :
    dlookup (anonymize_data r) "nom" = some (.str "Nom & Prénom") ∧
    dlookup (anonymize_data r) "email" = some .null ∧
    dlookup (anonymize_data r) "telephone" = some .null ∧
    dlookup (anonymize_data r) "adresse" = some .null ∧
    dlookup (anonymize_data r) "photo" = some .null ∧
    ∀ k : String, k ≠ "nom" → k ≠ "email" → k ≠ "telephone" →
      k ≠ "adresse" → k ≠ "photo" →
      dlookup (anonymize_data r) k = dlookup r k := by
  refine ⟨by simp [anonymize_lookup], by simp [anonymize_lookup],
    by simp [anonymize_lookup], by simp [anonymize_lookup],
    by simp [anonymize_lookup], ?_⟩
  intro k h1 h2 h3 h4 h5
  simp [anonymize_lookup, h1, h2, h3, h4, h5]

/-- Witness for C1: a concrete record (with `email` already null and real
company/location data in `experiences`) keeps its `experiences` field. -/
theorem c1_anonymize_identifying_fields_witness :
    dlookup (anonymize_data [("nom", Value.str "Jean Dupont"),
        ("email", Value.null),
        ("experiences", Value.vlist [Value.vdict
          [("entreprise", Value.str "Acme"), ("lieu", Value.str "Paris")]])])
      "experiences" =
    dlookup [("nom", Value.str "Jean Dupont"), ("email", Value.null),
        ("experiences", Value.vlist [Value.vdict
          [("entreprise", Value.str "Acme"), ("lieu", Value.str "Paris")]])]
      "experiences" :=
  (c1_anonymize_identifying_fields _).2.2.2.2.2 "experiences" (by decide)
    (by decide) (by decide) (by decide) (by decide)

/-- C6: anonymization is idempotent, and it never alters `diplomes`,
`certifications`, `competences_groups`, `langues` or `experiences` — the
`experiences` value is returned unchanged, so the company and location
sub-fields inside it are unchanged as well. -/
theorem c6_anonymize_idempotent (r : List (String × Value)) :
    anonymize_data (anonymize_data r) = anonymize_data r ∧
    dlookup (anonymize_data r) "diplomes" = dlookup r "diplomes" ∧
    dlookup (anonymize_data r) "certifications" = dlookup r "certifications" ∧
    dlookup (anonymize_data r) "competences_groups" =
      dlookup r "competences_groups" ∧
    dlookup (anonymize_data r) "langues" = dlookup r "langues" ∧
    dlookup (anonymize_data r) "experiences" = dlookup r "experiences" :=
  ⟨anonymize_idem r, by simp [anonymize_lookup], by simp [anonymize_lookup],
   by simp [anonymize_lookup], by simp [anonymize_lookup],
   by simp [anonymize_lookup]⟩

/-- C5: in the primary path every failure — a model-call exception
(`genResult = .error e`) or a JSON parse failure on the cleaned response —
is caught and `_ai_extract` returns the fallback extraction of the same
raw text; and for every outcome of the model call the result is `.ok`
(no model, network or parse error ever propagates to the caller). -/
theorem c5_primary_failures_fall_back (jl : String → Option Value)
    (text : String) :
    (∀ e : String, ∀ r, basic_extract text = .ok r →
        ai_extract jl (.error e) text = .ok (.vdict r)) ∧
    (∀ resp : String, ∀ r, jl (String.mk (cleanJson resp.toList)) = none →
        basic_extract text = .ok r →
        ai_extract jl (.ok resp) text = .ok (.vdict r)) ∧
    (∀ gr : Except String String, ∃ v, ai_extract jl gr text = .ok v) := by
  refine ⟨?_, ?_, fun gr => ai_extract_ok jl gr text⟩
  · intro e r hr
    simp [ai_extract, ai_extract_body, hr]
  · intro resp r hj hr
    simp only [String.toList] at hj
    simp [ai_extract, ai_extract_body, hj, hr]

/-- Witness for C5: a failing model call and an unparsable response both
yield the fallback record of the raw text "x". -/
theorem c5_primary_failures_fall_back_witness :
    ai_extract (fun _ => none) (.error "network down") "x" =
      .ok (.vdict [("diplomes", .vlist []),
        ("competences", .vdict (competencesDict "x".toList)),
        ("langues", .vlist []), ("experiences", .vlist [])]) ∧
    ai_extract (fun _ => none) (.ok "not json at all") "x" =
      .ok (.vdict [("diplomes", .vlist []),
        ("competences", .vdict (competencesDict "x".toList)),
        ("langues", .vlist []), ("experiences", .vlist [])]) :=
  ⟨(c5_primary_failures_fall_back (fun _ => none) "x").1 "network down"
      _ (by rfl),
   (c5_primary_failures_fall_back (fun _ => none) "x").2.1 "not json at all"
      _ rfl (by rfl)⟩

/-- C7: on the input `"2020 Master Informatique\nUniversité Paris\n"`
(no "expérience" marker), the fallback extractor produces exactly one
diploma entry — year "2020", title "2020 Master Informatique",
institution "Université Paris" — and an empty experiences sequence. -/
theorem c7_fallback_concrete_example :
    (basic_extract "2020 Master Informatique\nUniversité Paris\n").map
      (fun r => (dlookup r "diplomes", dlookup r "experiences")) =
    .ok (some (.vlist [.vdict [("annee", .str "2020"),
           ("diplome", .str "2020 Master Informatique"),
           ("etablissement", .str "Université Paris")]]),
         some (.vlist [])) := by
  rfl

/-- C8: `parse_cv` fails with the empty-input error exactly when the
extracted text has fewer than 50 characters; for 50 or more it returns a
record (hence never raises that error). -/
theorem c8_short_input_guard (ai : Bool) (jl : String → Option Value)
    (gr : Except String String) (text : String) :
    (text.length < 50 →
        parse_cv ai jl gr text = .error "CV text is too short or empty") ∧
    (50 ≤ text.length → ∃ v, parse_cv ai jl gr text = .ok v) := by
  constructor
  · intro h
    simp only [parse_cv]
    rw [if_pos (Or.inr h)]
  · intro h
    have hng : ¬ (text.length = 0 ∨ text.length < 50) := by omega
    cases ai with
    | true =>
      obtain ⟨v, hv⟩ := ai_extract_ok jl gr text
      refine ⟨v, ?_⟩
      simp only [parse_cv]
      rw [if_neg hng]
      simpa using hv
    | false =>
      obtain ⟨ds, es, hr⟩ := basic_extract_ok text
      refine ⟨.vdict [("diplomes", .vlist ds),
        ("competences", .vdict (competencesDict text.toList)),
        ("langues", .vlist []), ("experiences", .vlist es)], ?_⟩
      simp only [parse_cv]
      rw [if_neg hng]
      simp [hr]

/-- Witness for C8: a 9-character text is rejected; a 55-character text is
parsed into a record. -/
theorem c8_short_input_guard_witness :
    parse_cv false (fun _ => none) (.error "no api key") "too short" =
      .error "CV text is too short or empty" ∧
    ∃ v, parse_cv false (fun _ => none) (.error "no api key")
      "0123456789012345678901234567890123456789012345678901234" = .ok v :=
  ⟨(c8_short_input_guard false (fun _ => none) (.error "no api key")
      "too short").1 (by decide),
   (c8_short_input_guard false (fun _ => none) (.error "no api key")
      "0123456789012345678901234567890123456789012345678901234").2
      (by decide)⟩

/-!
## Block classification and renderer analysis
-/

def isHeaderT (t : String) : Block → Bool
  | .sectionHeader _ t2 => t2 = t
  | _ => false

def isAnyHeader : Block → Bool
  | .sectionHeader _ _ => true
  | _ => false

def isCertRowB : Block → Bool
  | .certRow _ _ _ => true
  | _ => false

def isSkillRowB : Block → Bool
  | .skillRow _ _ => true
  | _ => false

def isTitleLine : Block → Bool
  | .titleLine _ => true
  | _ => false

/-- Blocks that carry record content (everything except chrome: logo,
spacers, page breaks, the fixed title block and the footer). -/
def isContentB : Block → Bool
  | .logo => false
  | .spacer => false
  | .pageBreak => false
  | .titleLine _ => false
  | .footerLine _ => false
  | _ => true

theorem any_false_of_map {α : Type} (l : List α) (f : α → Block)
    (p : Block → Bool) (h : ∀ a, p (f a) = false) : (l.map f).any p = false := by
  induction l with
  | nil => rfl
  | cons x rest ih => simp [h x, ih]

theorem any_false_of_filterMap {α : Type} (l : List α) (f : α → Option Block)
    (p : Block → Bool) (h : ∀ a b, f a = some b → p b = false) :
    (l.filterMap f).any p = false := by
  induction l with
  | nil => rfl
  | cons x rest ih =>
    rw [List.filterMap_cons]
    cases hf : f x with
    | none => exact ih
    | some b => simp [h x b hf, ih]

theorem any_section_chunk (c : Bool) (bs : List Block) (p : Block → Bool) :
    (if c = true then bs else []).any p = (c && bs.any p) := by
  cases c <;> simp

theorem logoBlocks_any (lf : Bool) (p : Block → Bool) (h1 : p .logo = false)
    (h2 : p .spacer = false) : (logoBlocks lf).any p = false := by
  cases lf <;> simp [logoBlocks, h1, h2]

theorem diplomeRows_any (ds : List Value) (p : Block → Bool)
    (h : ∀ a b c, p (.diplomeRow a b c) = false) :
    (diplomeRows ds).any p = false :=
  any_false_of_map _ _ _ (fun _ => h _ _ _)

theorem certRows_any (cs : List Value) (p : Block → Bool)
    (h : ∀ a b c, p (.certRow a b c) = false) :
    (certRows cs).any p = false :=
  any_false_of_map _ _ _ (fun _ => h _ _ _)

theorem langueRows_any (ls : List Value) (p : Block → Bool)
    (h : ∀ a b, p (.langueRow a b) = false) :
    (langueRows ls).any p = false :=
  any_false_of_map _ _ _ (fun _ => h _ _)

theorem skillRows_any (gs : List Value) (p : Block → Bool)
    (h : ∀ a b, p (.skillRow a b) = false) :
    (skillRows gs).any p = false := by
  simp only [skillRows]
  refine any_false_of_filterMap _ _ _ ?_
  intro a b hb
  by_cases hc : truthy (vget a "competences" (.vlist []))
  · rw [if_pos hc] at hb
    cases hb
    exact h _ _
  · rw [if_neg hc] at hb
    simp at hb

theorem expBlocks_any (lbl : String) (e : Value) (p : Block → Bool)
    (h1 : ∀ a b, p (.expHeader a b) = false)
    (h2 : ∀ v, p (.posteLine v) = false)
    (h3 : ∀ v, p (.lieuLine v) = false)
    (h4 : ∀ s, p (.labelLine s) = false)
    (h5 : ∀ v, p (.projetLine v) = false)
    (h6 : ∀ v, p (.realLine v) = false)
    (h7 : ∀ v, p (.envLine v) = false) :
    (expBlocks lbl e).any p = false := by
  have hp : ∀ vs : List Value, (vs.filterMap (fun q =>
      if stripTruthy q then some (Block.projetLine q) else none)).any p = false := by
    intro vs
    refine any_false_of_filterMap _ _ _ ?_
    intro a b hb
    by_cases hs : stripTruthy a
    · rw [if_pos hs] at hb
      cases hb
      exact h5 a
    · rw [if_neg hs] at hb
      simp at hb
  have hr : ∀ vs : List Value, (vs.filterMap (fun q =>
      if stripTruthy q then some (Block.realLine q) else none)).any p = false := by
    intro vs
    refine any_false_of_filterMap _ _ _ ?_
    intro a b hb
    by_cases hs : stripTruthy a
    · rw [if_pos hs] at hb
      cases hb
      exact h6 a
    · rw [if_neg hs] at hb
      simp at hb
  simp only [expBlocks, List.any_append, List.any_cons, List.any_nil]
  simp [h1, h2, h3, h4, h7, hp, hr, apply_ite (List.any · p)]

theorem pdfExperiences_any (es : List Value) (p : Block → Bool)
    (h0 : p .spacer = false)
    (h1 : ∀ a b, p (.expHeader a b) = false)
    (h2 : ∀ v, p (.posteLine v) = false)
    (h3 : ∀ v, p (.lieuLine v) = false)
    (h4 : ∀ s, p (.labelLine s) = false)
    (h5 : ∀ v, p (.projetLine v) = false)
    (h6 : ∀ v, p (.realLine v) = false)
    (h7 : ∀ v, p (.envLine v) = false) :
    (pdfExperiences es).any p = false := by
  induction es with
  | nil => rfl
  | cons e rest ih =>
    cases rest with
    | nil =>
      simp only [pdfExperiences]
      exact expBlocks_any _ _ _ h1 h2 h3 h4 h5 h6 h7
    | cons e2 t =>
      simp only [pdfExperiences, List.any_append, List.any_cons, List.any_nil]
      simp [expBlocks_any _ _ _ h1 h2 h3 h4 h5 h6 h7, h0, ih]

theorem wordExperiences_any (es : List Value) (p : Block → Bool)
    (h0 : p .spacer = false)
    (h1 : ∀ a b, p (.expHeader a b) = false)
    (h2 : ∀ v, p (.posteLine v) = false)
    (h3 : ∀ v, p (.lieuLine v) = false)
    (h4 : ∀ s, p (.labelLine s) = false)
    (h5 : ∀ v, p (.projetLine v) = false)
    (h6 : ∀ v, p (.realLine v) = false)
    (h7 : ∀ v, p (.envLine v) = false) :
    (wordExperiences es).any p = false := by
  induction es with
  | nil => rfl
  | cons e rest ih =>
    have ih2 := ih
    simp only [wordExperiences, List.map_cons, List.flatten_cons,
      List.any_append] at ih2 ⊢
    simp [expBlocks_any _ _ _ h1 h2 h3 h4 h5 h6 h7, h0, ih2]

theorem certRows_any_self (cs : List Value) :
    (certRows cs).any isCertRowB = !cs.isEmpty := by
  cases cs <;> simp [certRows, isCertRowB]

/-- In the PDF skeleton a section header with title `t` appears exactly
when the corresponding record key is truthy and `t` is that section's
title. -/
theorem pdf_hasHeader (f : String) (lf : Bool) (data : List (String × Value))
    (t : String) :
    (pdf_template_generate f lf data).any (isHeaderT t) =
      ((otruthy (dlookup data "diplomes") && decide ("FORMATION" = t))
       || (otruthy (dlookup data "certifications")
            && decide ("CERTIFICATIONS" = t))
       || (otruthy (dlookup data "competences_groups")
            && decide ("COMPÉTENCES TECHNIQUES" = t))
       || (otruthy (dlookup data "langues") && decide ("LANGUES" = t))
       || (otruthy (dlookup data "experiences")
            && decide ("EXPÉRIENCES PROFESSIONNELLES" = t))) := by
  have hlogo := logoBlocks_any lf (isHeaderT t) rfl rfl
  have hd := diplomeRows_any (getList data "diplomes") (isHeaderT t)
    (fun _ _ _ => rfl)
  have hc := certRows_any (getList data "certifications") (isHeaderT t)
    (fun _ _ _ => rfl)
  have hs := skillRows_any (getList data "competences_groups") (isHeaderT t)
    (fun _ _ => rfl)
  have hl := langueRows_any (getList data "langues") (isHeaderT t)
    (fun _ _ => rfl)
  have he := pdfExperiences_any (getList data "experiences") (isHeaderT t) rfl
    (fun _ _ => rfl) (fun _ => rfl) (fun _ => rfl) (fun _ => rfl)
    (fun _ => rfl) (fun _ => rfl) (fun _ => rfl)
  simp only [pdf_template_generate, sectionHeaderBlocks, List.any_append,
    List.append_assoc, List.any_cons, List.any_nil, any_section_chunk,
    hlogo, hd, hc, hs, hl, he]
  simp [isHeaderT, Bool.or_assoc]

/-- In the Word skeleton: one combined header for diplomas (and nested
certifications), then skills, languages, experiences. -/
theorem word_hasHeader (lf : Bool) (tpl : String)
    (data : List (String × Value)) (t : String) :
    (word_generate lf tpl data).any (isHeaderT t) =
      ((otruthy (dlookup data "diplomes")
          && decide ("FORMATIONS & CERTIFICATIONS" = t))
       || (otruthy (dlookup data "competences_groups")
            && decide ("COMPÉTENCES FONCTIONNELLES & TECHNIQUES" = t))
       || (otruthy (dlookup data "langues") && decide ("LANGUES" = t))
       || (otruthy (dlookup data "experiences")
            && decide ("EXPÉRIENCES PROFESSIONNELLES" = t))) := by
  have hlogo := logoBlocks_any lf (isHeaderT t) rfl rfl
  have hd := diplomeRows_any (getList data "diplomes") (isHeaderT t)
    (fun _ _ _ => rfl)
  have hc := certRows_any (getList data "certifications") (isHeaderT t)
    (fun _ _ _ => rfl)
  have hs := skillRows_any (getList data "competences_groups") (isHeaderT t)
    (fun _ _ => rfl)
  have hl := langueRows_any (getList data "langues") (isHeaderT t)
    (fun _ _ => rfl)
  have he := wordExperiences_any (getList data "experiences") (isHeaderT t) rfl
    (fun _ _ => rfl) (fun _ => rfl) (fun _ => rfl) (fun _ => rfl)
    (fun _ => rfl) (fun _ => rfl) (fun _ => rfl)
  simp only [word_generate, sectionHeaderBlocks, List.any_append,
    List.append_assoc, List.any_cons, List.any_nil, any_section_chunk,
    hlogo, hd, hc, hs, hl, he]
  simp [isHeaderT, Bool.or_assoc]

/-- Certification rows appear in the Word output exactly when both the
`diplomes` guard and the `certifications` guard hold (and the
certification list is non-empty). -/
theorem word_any_certRow (lf : Bool) (tpl : String)
    (data : List (String × Value)) :
    (word_generate lf tpl data).any isCertRowB =
      (otruthy (dlookup data "diplomes")
       && otruthy (dlookup data "certifications")
       && !(getList data "certifications").isEmpty) := by
  have hlogo := logoBlocks_any lf isCertRowB rfl rfl
  have hd := diplomeRows_any (getList data "diplomes") isCertRowB
    (fun _ _ _ => rfl)
  have hs := skillRows_any (getList data "competences_groups") isCertRowB
    (fun _ _ => rfl)
  have hl := langueRows_any (getList data "langues") isCertRowB
    (fun _ _ => rfl)
  have he := wordExperiences_any (getList data "experiences") isCertRowB rfl
    (fun _ _ => rfl) (fun _ => rfl) (fun _ => rfl) (fun _ => rfl)
    (fun _ => rfl) (fun _ => rfl) (fun _ => rfl)
  simp only [word_generate, sectionHeaderBlocks, List.any_append,
    List.append_assoc, List.any_cons, List.any_nil, any_section_chunk,
    hlogo, hd, hs, hl, he, certRows_any_self]
  simp [isCertRowB, Bool.and_assoc]

/-- No skill block is rendered by the PDF skeleton when
`competences_groups` is absent or falsy. -/
theorem pdf_any_skillRow_of_absent (f : String) (lf : Bool)
    (data : List (String × Value))
    (h : otruthy (dlookup data "competences_groups") = false) :
    (pdf_template_generate f lf data).any isSkillRowB = false := by
  have hlogo := logoBlocks_any lf isSkillRowB rfl rfl
  have hd := diplomeRows_any (getList data "diplomes") isSkillRowB
    (fun _ _ _ => rfl)
  have hc := certRows_any (getList data "certifications") isSkillRowB
    (fun _ _ _ => rfl)
  have hl := langueRows_any (getList data "langues") isSkillRowB
    (fun _ _ => rfl)
  have he := pdfExperiences_any (getList data "experiences") isSkillRowB rfl
    (fun _ _ => rfl) (fun _ => rfl) (fun _ => rfl) (fun _ => rfl)
    (fun _ => rfl) (fun _ => rfl) (fun _ => rfl)
  simp only [pdf_template_generate, sectionHeaderBlocks, List.any_append,
    List.append_assoc, List.any_cons, List.any_nil, any_section_chunk,
    hlogo, hd, hc, hl, he, h]
  simp [isSkillRowB]

/-- No skill block is rendered by the Word generator when
`competences_groups` is absent or falsy. -/
theorem word_any_skillRow_of_absent (lf : Bool) (tpl : String)
    (data : List (String × Value))
    (h : otruthy (dlookup data "competences_groups") = false) :
    (word_generate lf tpl data).any isSkillRowB = false := by
  have hlogo := logoBlocks_any lf isSkillRowB rfl rfl
  have hd := diplomeRows_any (getList data "diplomes") isSkillRowB
    (fun _ _ _ => rfl)
  have hc := certRows_any (getList data "certifications") isSkillRowB
    (fun _ _ _ => rfl)
  have hl := langueRows_any (getList data "langues") isSkillRowB
    (fun _ _ => rfl)
  have he := wordExperiences_any (getList data "experiences") isSkillRowB rfl
    (fun _ _ => rfl) (fun _ => rfl) (fun _ => rfl) (fun _ => rfl)
    (fun _ => rfl) (fun _ => rfl) (fun _ => rfl)
  simp only [word_generate, sectionHeaderBlocks, List.any_append,
    List.append_assoc, List.any_cons, List.any_nil, any_section_chunk,
    hlogo, hd, hc, hl, he, h]
  simp [isSkillRowB]

/-- A record field holding a sequence: absent, or a list value.  This is
the shape invariant of the canonical record's sequence fields. -/
def SeqShape (data : List (String × Value)) (k : String) : Prop :=
  dlookup data k = none ∨ ∃ xs, dlookup data k = some (Value.vlist xs)

theorem otruthy_eq_seq (data : List (String × Value)) (k : String)
    (h : SeqShape data k) :
    otruthy (dlookup data k) = !(getList data k).isEmpty := by
  rcases h with hnone | ⟨xs, hsome⟩
  · simp [hnone, otruthy, getList]
  · cases xs <;> simp [hsome, otruthy, truthy, getList, asList]

/-!
## Claims C2, C3, C4, C9, C10
-/

/-- C2 counterexample: on a 55-character input the fallback extractor
succeeds, but the returned record does NOT contain the canonical-shape
keys `certifications` and `competences_groups` — so the claim that the
result is "in the canonical shape with all required keys present" fails. -/
theorem c2_counterexample :
    50 ≤ ("Jean Dupont, developpeur Java avec dix ans de pratique." :
      String).length ∧
    (basic_extract "Jean Dupont, developpeur Java avec dix ans de pratique.").map
      (fun r => (dlookup r "certifications", dlookup r "competences_groups")) =
      .ok (none, none) :=
  ⟨by decide, by rfl⟩

/-- C2 amended: for every input text of length at least 50, the fallback
extractor terminates without raising (the result is always `.ok`) and
returns a record holding exactly the four keys it defines — `diplomes`,
`competences`, `langues`, `experiences` — with `diplomes` and
`experiences` list-valued (empty when nothing is extracted), `langues`
always the empty list, and `competences` the fixed fourteen-category
mapping; the canonical keys `certifications` and `competences_groups` are
not present. -/
theorem c2_fallback_total_shape (text : String) (h : 50 ≤ text.length) :
    ∃ r, basic_extract text = .ok r ∧
      (∃ ds, dlookup r "diplomes" = some (.vlist ds)) ∧
      dlookup r "competences" = some (.vdict (competencesDict text.toList)) ∧
      dlookup r "langues" = some (.vlist []) ∧
      (∃ es, dlookup r "experiences" = some (.vlist es)) ∧
      dlookup r "certifications" = none ∧
      dlookup r "competences_groups" = none := by
  obtain ⟨ds, es, hr⟩ := basic_extract_ok text
  exact ⟨_, hr, ⟨ds, by simp [dlookup]⟩, by simp [dlookup], by simp [dlookup],
    ⟨es, by simp [dlookup]⟩, by simp [dlookup], by simp [dlookup]⟩

/-- Witness for C2 (amended): the shape result on a concrete 55-character
input. -/
theorem c2_fallback_total_shape_witness :
    ∃ r, basic_extract
        "Jean Dupont, developpeur Java avec dix ans de pratique." = .ok r ∧
      (∃ ds, dlookup r "diplomes" = some (.vlist ds)) ∧
      dlookup r "competences" = some (.vdict (competencesDict
        ("Jean Dupont, developpeur Java avec dix ans de pratique.").toList)) ∧
      dlookup r "langues" = some (.vlist []) ∧
      (∃ es, dlookup r "experiences" = some (.vlist es)) ∧
      dlookup r "certifications" = none ∧
      dlookup r "competences_groups" = none :=
  c2_fallback_total_shape
    "Jean Dupont, developpeur Java avec dix ans de pratique." (by decide)

/-- The cleaning step the spec describes — slicing the text to the
substring between the first `\x7b` and the last `\x7d` — written from the
spec's words, for comparison with the code's `cleanJson`. -/
def sliceBraces (cs : List Char) : List Char :=
  let rest := cs.dropWhile (fun c => c ≠ '{')
  dropRight rest (rest.reverse.takeWhile (fun c => c ≠ '}')).length

/-- C3 counterexample: for the fence-free response
`Voici: \x7b"a": 1\x7d merci` (prose around a JSON object), the code's
cleaning returns the whole trimmed response, not the brace-delimited
slice; consequently a parser that accepts exactly the sliced substring
still fails inside `_ai_extract`'s body. -/
theorem c3_counterexample :
    cleanJson ("Voici: \x7b\"a\": 1\x7d merci".toList) ≠
      sliceBraces ("Voici: \x7b\"a\": 1\x7d merci".toList) ∧
    cleanJson ("Voici: \x7b\"a\": 1\x7d merci".toList) =
      "Voici: \x7b\"a\": 1\x7d merci".toList ∧
    sliceBraces ("Voici: \x7b\"a\": 1\x7d merci".toList) =
      "\x7b\"a\": 1\x7d".toList ∧
    ai_extract_body
      (fun s => if s = String.mk (sliceBraces
          ("Voici: \x7b\"a\": 1\x7d merci".toList)) then some Value.null
        else none)
      (.ok "Voici: \x7b\"a\": 1\x7d merci") = .error "json.JSONDecodeError" :=
  ⟨by decide, by rfl, by rfl, by rfl⟩

/-- C3 amended: the response text is cleaned only by stripping surrounding
whitespace and leading/trailing fenced code-block markers before JSON
parsing; no slicing between the first `\x7b` and the last `\x7d` is
performed, so for a fence-free response the parser receives the whole
trimmed response with any prose wrapping intact (and a fenced JSON body
is unwrapped, concrete second conjunct). -/
theorem c3_cleaning_is_fence_strip_only (cs : List Char)
    (h1 : ¬ ("```json".toList.isPrefixOf (strip cs) = true))
    (h2 : ¬ ("```".toList.isPrefixOf (strip cs) = true))
    (h3 : ¬ ("```".toList.isSuffixOf (strip cs) = true)) :
    cleanJson cs = strip cs ∧
    cleanJson ("```json\n\x7b\"a\": 1\x7d\n```".toList) =
      "\x7b\"a\": 1\x7d".toList := by
  constructor
  · simp only [cleanJson, if_neg h1, if_neg h2, if_neg h3]
    exact strip_idem cs
  · rfl

/-- Witness for C3 (amended): a concrete fence-free response with prose is
passed through trimmed but otherwise whole. -/
theorem c3_cleaning_is_fence_strip_only_witness :
    cleanJson ("  Voici le JSON demande.  ".toList) =
      strip ("  Voici le JSON demande.  ".toList) ∧
    cleanJson ("```json\n\x7b\"a\": 1\x7d\n```".toList) =
      "\x7b\"a\": 1\x7d".toList :=
  c3_cleaning_is_fence_strip_only ("  Voici le JSON demande.  ".toList)
    (by decide) (by decide) (by decide)

/-- A record with every sequence field present and empty. -/
def emptyRec : List (String × Value) :=
  [("diplomes", .vlist []), ("certifications", .vlist []),
   ("competences_groups", .vlist []), ("langues", .vlist []),
   ("experiences", .vlist [])]

/-- C4 counterexample: in the Word format, a record whose `certifications`
sequence is non-empty (and `diplomes` empty) renders with NO section
header at all — and not even the certification rows — refuting "a section
header is emitted iff the corresponding sequence is non-empty". -/
theorem c4_counterexample :
    (getList [("certifications", Value.vlist [Value.vdict
        [("annee", Value.str "2021"), ("nom", Value.str "AWS SAA"),
         ("organisme", Value.str "AWS")]])] "certifications").length = 1 ∧
    (word_generate false "advanced" [("certifications", Value.vlist
        [Value.vdict [("annee", Value.str "2021"),
         ("nom", Value.str "AWS SAA"), ("organisme", Value.str "AWS")]])]).any
      isAnyHeader = false ∧
    (word_generate false "advanced" [("certifications", Value.vlist
        [Value.vdict [("annee", Value.str "2021"),
         ("nom", Value.str "AWS SAA"), ("organisme", Value.str "AWS")]])]).any
      isCertRowB = false :=
  ⟨rfl, rfl, rfl⟩

/-- C4 amended: (a) a record with every sequence field empty renders, in
both formats, with no section headers and no content blocks — only
chrome and the fixed title block; (b) in the PDF format a section header
is emitted iff the corresponding sequence is non-empty, for each of the
five sections; (c) in the Word format the same holds for the headers
FORMATIONS & CERTIFICATIONS (governed by `diplomes`), COMPÉTENCES
FONCTIONNELLES & TECHNIQUES, LANGUES and EXPÉRIENCES PROFESSIONNELLES —
certifications have no header of their own: their rows are emitted iff
both `diplomes` and `certifications` are non-empty (d). -/
theorem c4_section_headers_iff (data : List (String × Value)) (lf : Bool)
    (tpl : String)
    (hd : SeqShape data "diplomes") (hc : SeqShape data "certifications")
    (hg : SeqShape data "competences_groups") (hl : SeqShape data "langues")
    (he : SeqShape data "experiences") :
    ((advanced_generate lf emptyRec).any isAnyHeader = false ∧
     (advanced_generate lf emptyRec).any isContentB = false ∧
     (advanced_generate lf emptyRec).any isTitleLine = true ∧
     (word_generate lf "advanced" emptyRec).any isAnyHeader = false ∧
     (word_generate lf "advanced" emptyRec).any isContentB = false ∧
     (word_generate lf "advanced" emptyRec).any isTitleLine = true) ∧
    ((advanced_generate lf data).any (isHeaderT "FORMATION") =
        !(getList data "diplomes").isEmpty ∧
     (advanced_generate lf data).any (isHeaderT "CERTIFICATIONS") =
        !(getList data "certifications").isEmpty ∧
     (advanced_generate lf data).any (isHeaderT "COMPÉTENCES TECHNIQUES") =
        !(getList data "competences_groups").isEmpty ∧
     (advanced_generate lf data).any (isHeaderT "LANGUES") =
        !(getList data "langues").isEmpty ∧
     (advanced_generate lf data).any
        (isHeaderT "EXPÉRIENCES PROFESSIONNELLES") =
        !(getList data "experiences").isEmpty) ∧
    ((word_generate lf tpl data).any
        (isHeaderT "FORMATIONS & CERTIFICATIONS") =
        !(getList data "diplomes").isEmpty ∧
     (word_generate lf tpl data).any
        (isHeaderT "COMPÉTENCES FONCTIONNELLES & TECHNIQUES") =
        !(getList data "competences_groups").isEmpty ∧
     (word_generate lf tpl data).any (isHeaderT "LANGUES") =
        !(getList data "langues").isEmpty ∧
     (word_generate lf tpl data).any
        (isHeaderT "EXPÉRIENCES PROFESSIONNELLES") =
        !(getList data "experiences").isEmpty) ∧
    ((word_generate lf tpl data).any isCertRowB =
      (!(getList data "diplomes").isEmpty &&
       !(getList data "certifications").isEmpty)) := by
  refine ⟨?_, ⟨?_, ?_, ?_, ?_, ?_⟩, ⟨?_, ?_, ?_, ?_⟩, ?_⟩
  · cases lf <;> exact ⟨rfl, rfl, rfl, rfl, rfl, rfl⟩
  · simp [advanced_generate, pdf_hasHeader, otruthy_eq_seq data "diplomes" hd]
  · simp [advanced_generate, pdf_hasHeader,
      otruthy_eq_seq data "certifications" hc]
  · simp [advanced_generate, pdf_hasHeader,
      otruthy_eq_seq data "competences_groups" hg]
  · simp [advanced_generate, pdf_hasHeader, otruthy_eq_seq data "langues" hl]
  · simp [advanced_generate, pdf_hasHeader,
      otruthy_eq_seq data "experiences" he]
  · simp [word_hasHeader, otruthy_eq_seq data "diplomes" hd]
  · simp [word_hasHeader, otruthy_eq_seq data "competences_groups" hg]
  · simp [word_hasHeader, otruthy_eq_seq data "langues" hl]
  · simp [word_hasHeader, otruthy_eq_seq data "experiences" he]
  · rw [word_any_certRow, otruthy_eq_seq data "diplomes" hd,
      otruthy_eq_seq data "certifications" hc]
    cases (getList data "diplomes").isEmpty <;>
      cases (getList data "certifications").isEmpty <;> simp

/-- Witness for C4 (amended): a record with one diploma and nothing else
gets the FORMATION header in the PDF output and no certification rows in
the Word output. -/
theorem c4_section_headers_iff_witness :
    (advanced_generate false [("diplomes", Value.vlist [Value.vdict
        [("annee", Value.str "2020")]])]).any (isHeaderT "FORMATION") =
      true ∧
    (word_generate false "advanced" [("diplomes", Value.vlist [Value.vdict
        [("annee", Value.str "2020")]])]).any isCertRowB = false := by
  have h := c4_section_headers_iff
    [("diplomes", Value.vlist [Value.vdict [("annee", Value.str "2020")]])]
    false "advanced" (Or.inr ⟨_, rfl⟩) (Or.inl rfl) (Or.inl rfl) (Or.inl rfl)
    (Or.inl rfl)
  exact ⟨h.2.1.1.trans (by rfl), h.2.2.2.trans (by rfl)⟩

/-- C9: every record produced by the fallback extractor stores skills
under `competences` (the fixed category mapping) and never defines
`competences_groups`; since both renderers emit the skills header and
skill rows only from a truthy `competences_groups`, a fallback record
renders with no skills section in either format, regardless of matched
technologies. -/
theorem c9_fallback_renders_no_skills (text : String)
    (r : List (String × Value)) (hr : basic_extract text = .ok r)
    (lf : Bool) (tpl f : String) :
    dlookup r "competences" = some (.vdict (competencesDict text.toList)) ∧
    dlookup r "competences_groups" = none ∧
    (pdf_template_generate f lf r).any
      (isHeaderT "COMPÉTENCES TECHNIQUES") = false ∧
    (pdf_template_generate f lf r).any isSkillRowB = false ∧
    (word_generate lf tpl r).any
      (isHeaderT "COMPÉTENCES FONCTIONNELLES & TECHNIQUES") = false ∧
    (word_generate lf tpl r).any isSkillRowB = false := by
  obtain ⟨ds, es, hshape⟩ := basic_extract_ok text
  rw [hr] at hshape
  injection hshape with h
  subst h
  have hno : otruthy (dlookup [("diplomes", Value.vlist ds),
      ("competences", Value.vdict (competencesDict text.toList)),
      ("langues", Value.vlist []), ("experiences", Value.vlist es)]
      "competences_groups") = false := by
    simp [dlookup, otruthy]
  refine ⟨by simp [dlookup], by simp [dlookup], ?_, ?_, ?_, ?_⟩
  · rw [pdf_hasHeader]
    simp_all
  · exact pdf_any_skillRow_of_absent _ _ _ hno
  · rw [word_hasHeader]
    simp_all
  · exact word_any_skillRow_of_absent _ _ _ hno

/-- Witness for C9: the fallback record of the raw text "x" renders with
no skills section in either format. -/
theorem c9_fallback_renders_no_skills_witness :
    (pdf_template_generate "www.consultingdatamed.com" false
      [("diplomes", Value.vlist []),
       ("competences", Value.vdict (competencesDict "x".toList)),
       ("langues", Value.vlist []), ("experiences", Value.vlist [])]).any
      isSkillRowB = false ∧
    (word_generate false "advanced"
      [("diplomes", Value.vlist []),
       ("competences", Value.vdict (competencesDict "x".toList)),
       ("langues", Value.vlist []), ("experiences", Value.vlist [])]).any
      isSkillRowB = false :=
  ⟨(c9_fallback_renders_no_skills "x" _ (by rfl) false "advanced"
      "www.consultingdatamed.com").2.2.2.1,
   (c9_fallback_renders_no_skills "x" _ (by rfl) false "advanced"
      "www.consultingdatamed.com").2.2.2.2.2⟩

/-- C10: `CVGenerator.generate_cv` anonymizes its input record itself
before dispatching to any renderer: the rendered document is the one
built from `anonymize_data r`, and pre-anonymizing by the caller makes no
difference to the output. -/
theorem c10_generate_always_anonymizes (lf : Bool) (tpl fmt : String)
    (r : List (String × Value)) :
    generate_cv lf tpl fmt r = generate_cv lf tpl fmt (anonymize_data r) ∧
    generate_cv lf tpl fmt r =
      (if fmt.toLower = "word" then word_generate lf tpl (anonymize_data r)
       else if tpl = "fastorgie" then fastorgie_generate lf (anonymize_data r)
       else advanced_generate lf (anonymize_data r)) := by
  constructor
  · simp only [generate_cv, anonymize_idem]
  · rfl

end DatamedCV
